import Mathlib

/-!
Shallow embedding of the per-call media relay of the elevenlabs-twilio
AI caller (src/inbound-calls.js and its earlier drafts in src/unnamed/part_000).

Conventions of the embedding:
* A Node `Buffer` is a `List Nat` of byte values; base64 transport strings are
  identified with the byte sequences they decode to (base64 encoding is a
  bijection between byte sequences and their canonical encodings, and the
  empty string corresponds to the empty buffer, so JavaScript truthiness of a
  base64 payload string is modelled as non-emptiness of the byte list).
* Fallible JavaScript code is modelled with `Except`/explicit result types;
  an uncaught JavaScript exception is a distinguished constructor, never a
  returned value.
* The mutable per-call session variables (`outQueue`, `streamSid`,
  `convoReady`, `pacerTimer`, socket readiness) become a `Session` record and
  every socket callback / timer callback becomes a pure step function from a
  session to a session plus the list of messages it emits.
-/

/-- The constant `FRAME_BYTES = 160` of src/inbound-calls.js line 65:
20 ms of 8 kHz mono 8-bit audio. -/
def FRAME_BYTES : Nat := 160

/-- Byte values of the ASCII string "RIFF". -/
def riffBytes : List Nat := [0x52, 0x49, 0x46, 0x46]

/-- Byte values of the ASCII string "WAVE". -/
def waveBytes : List Nat := [0x57, 0x41, 0x56, 0x45]

/-- Byte values of the ASCII string "fmt " (WAV format chunk identifier). -/
def fmtBytes : List Nat := [0x66, 0x6D, 0x74, 0x20]

/-- Byte values of the ASCII string "data" (WAV data chunk identifier). -/
def dataBytes : List Nat := [0x64, 0x61, 0x74, 0x61]

/-- Byte values of the ASCII string "ID3" (MP3 tag signature). -/
def id3Bytes : List Nat := [0x49, 0x44, 0x33]

/-- Byte values of the ASCII string "OggS" (Ogg container signature). -/
def oggBytes : List Nat := [0x4F, 0x67, 0x67, 0x53]

/-- Node's `buf.readUInt16LE(off)`: little-endian 16-bit read, throwing
(`Except.error`) when fewer than two bytes are available at `off`. -/
def readUInt16LE (buf : List Nat) (off : Nat) : Except String Nat :=
  match buf.drop off with
  | b0 :: b1 :: _ => .ok (b0 + 256 * b1)
  | _ => .error "out of range"

/-- Node's `buf.readUInt32LE(off)`: little-endian 32-bit read, throwing
(`Except.error`) when fewer than four bytes are available at `off`. -/
def readUInt32LE (buf : List Nat) (off : Nat) : Except String Nat :=
  match buf.drop off with
  | b0 :: b1 :: b2 :: b3 :: _ =>
      .ok (b0 + 256 * b1 + 65536 * b2 + 16777216 * b3)
  | _ => .error "out of range"

/-- The frame-slicing loop of `enqueueELBase64` (src/inbound-calls.js
lines 112-115) and of the agent `audio` handler in src/unnamed/part_000
lines 210-217: `for (i = 0; i < buf.length; i += FRAME_BYTES)` pushes
`buf.subarray(i, min(i + FRAME_BYTES, buf.length))`, i.e. the buffer is cut
into successive 160-byte slices, the last of which may be shorter.
`buf.subarray(i, min(i+160, len))` is `(buf.drop i).take 160` and advancing
`i` by 160 is dropping 160 more bytes, giving this recursion. -/
def packetize (buf : List Nat) : List (List Nat) :=
  if buf.isEmpty then [] else buf.take FRAME_BYTES :: packetize (buf.drop FRAME_BYTES)
termination_by buf.length
decreasing_by
  rename_i h
  cases buf with
  | nil => simp at h
  | cons a t => simp [FRAME_BYTES, List.length_drop]; omega

theorem packetize_eq (buf : List Nat) :
    packetize buf =
      if buf.isEmpty then [] else buf.take FRAME_BYTES :: packetize (buf.drop FRAME_BYTES) := by
  rw [packetize.eq_def]

theorem packetize_nil : packetize [] = [] := by
  rw [packetize_eq]; rfl

theorem packetize_cons (a : Nat) (t : List Nat) :
    packetize (a :: t) = (a :: t).take 160 :: packetize ((a :: t).drop 160) := by
  rw [packetize_eq]; rfl

theorem packetize_flatten_aux :
    ∀ (n : Nat) (l : List Nat), l.length ≤ n → (packetize l).flatten = l := by
  intro n
  induction n with
  | zero =>
    intro l hl
    have hnil : l = [] := List.length_eq_zero.mp (Nat.le_zero.mp hl)
    subst hnil; rw [packetize_nil]; rfl
  | succ n ih =>
    intro l hl
    cases l with
    | nil => rw [packetize_nil]; rfl
    | cons a t =>
      rw [packetize_cons, List.flatten_cons,
        ih ((a :: t).drop 160) (by simp [List.length_drop] at hl ⊢; omega)]
      exact List.take_append_drop _ _

/-- Concatenating the frames produced by the packetizer reproduces the
original buffer. -/
theorem packetize_flatten (l : List Nat) : (packetize l).flatten = l :=
  packetize_flatten_aux l.length l le_rfl

theorem packetize_length_aux :
    ∀ (n : Nat) (l : List Nat), l.length ≤ n →
      (packetize l).length = (l.length + 159) / 160 := by
  intro n
  induction n with
  | zero =>
    intro l hl
    have hnil : l = [] := List.length_eq_zero.mp (Nat.le_zero.mp hl)
    subst hnil; rw [packetize_nil]; rfl
  | succ n ih =>
    intro l hl
    cases l with
    | nil => rw [packetize_nil]; rfl
    | cons a t =>
      rw [packetize_cons, List.length_cons,
        ih ((a :: t).drop 160) (by simp [List.length_drop] at hl ⊢; omega)]
      simp only [List.length_drop, List.length_cons]
      omega

/-- The packetizer yields exactly the ceiling of length over 160 frames. -/
theorem packetize_length (l : List Nat) :
    (packetize l).length = (l.length + 159) / 160 :=
  packetize_length_aux l.length l le_rfl

theorem packetize_mem_sizes_aux :
    ∀ (n : Nat) (l : List Nat), l.length ≤ n →
      ∀ f ∈ packetize l, 0 < f.length ∧ f.length ≤ 160 := by
  intro n
  induction n with
  | zero =>
    intro l hl f hf
    have hnil : l = [] := List.length_eq_zero.mp (Nat.le_zero.mp hl)
    subst hnil; rw [packetize_nil] at hf; simp at hf
  | succ n ih =>
    intro l hl f hf
    cases l with
    | nil => rw [packetize_nil] at hf; simp at hf
    | cons a t =>
      rw [packetize_cons] at hf
      rcases List.mem_cons.mp hf with h | h
      · subst h
        constructor
        · simp [List.length_take]
        · simp [List.length_take]
      · exact ih ((a :: t).drop 160) (by simp [List.length_drop] at hl ⊢; omega) f h

/-- Every frame produced by the packetizer is non-empty and at most 160
bytes long. -/
theorem packetize_mem_sizes (l : List Nat) :
    ∀ f ∈ packetize l, 0 < f.length ∧ f.length ≤ 160 :=
  packetize_mem_sizes_aux l.length l le_rfl

theorem packetize_dropLast_aux :
    ∀ (n : Nat) (l : List Nat), l.length ≤ n →
      ∀ f ∈ (packetize l).dropLast, f.length = 160 := by
  intro n
  induction n with
  | zero =>
    intro l hl f hf
    have hnil : l = [] := List.length_eq_zero.mp (Nat.le_zero.mp hl)
    subst hnil; rw [packetize_nil] at hf; simp at hf
  | succ n ih =>
    intro l hl f hf
    cases l with
    | nil => rw [packetize_nil] at hf; simp at hf
    | cons a t =>
      rw [packetize_cons] at hf
      cases hd : (a :: t).drop 160 with
      | nil =>
        rw [hd, packetize_nil] at hf
        simp at hf
      | cons d ds =>
        have h2 := congrArg List.length hd
        simp only [List.length_drop, List.length_cons] at h2
        rw [hd, packetize_cons] at hf
        rw [List.dropLast_cons₂] at hf
        rcases List.mem_cons.mp hf with h | h
        · subst h
          simp only [List.length_take, List.length_cons]
          omega
        · rw [← packetize_cons] at h
          have ht : (d :: ds).length ≤ n := by
            simp only [List.length_cons] at hl ⊢
            omega
          rw [← hd] at h ht
          exact ih ((a :: t).drop 160) ht f h

/-- Every frame except possibly the last has length exactly 160. -/
theorem packetize_dropLast (l : List Nat) :
    ∀ f ∈ (packetize l).dropLast, f.length = 160 :=
  packetize_dropLast_aux l.length l le_rfl

/-- The format-description fields read by `parseWavAndExtractData`
(src/unnamed/part_000 lines 19-22) from a WAV "fmt " chunk. -/
structure FmtInfo where
  audioFormat : Nat
  numChannels : Nat
  sampleRate : Nat
  bitsPerSample : Nat
deriving DecidableEq, Repr

/-- The four reads of the "fmt " chunk body (src/unnamed/part_000 lines
19-22): encoding tag, channel count, sample rate, bits per sample, at
offsets 0, 2, 4 and 14 from the chunk start. An out-of-range read throws,
and the reads happen in source order, so the first failing read wins. -/
def readFmtChunk (buf : List Nat) (chunkStart : Nat) : Except String FmtInfo :=
  match readUInt16LE buf chunkStart, readUInt16LE buf (chunkStart + 2),
      readUInt32LE buf (chunkStart + 4), readUInt16LE buf (chunkStart + 14) with
  | .ok af, .ok nc, .ok sr, .ok bps => .ok ⟨af, nc, sr, bps⟩
  | .error e, _, _, _ => .error e
  | _, .error e, _, _ => .error e
  | _, _, .error e, _ => .error e
  | _, _, _, .error e => .error e

/-- The chunk walk of `parseWavAndExtractData` (src/unnamed/part_000 lines
13-32): starting at `pos`, while `pos + 8 <= buf.length`, read the 4-byte
chunk identifier and its little-endian 32-bit size, record the format fields
for a "fmt " chunk and the data range for a "data" chunk, advance past the
chunk plus a pad byte for odd sizes, and stop early once both a data range
and an encoding tag have been seen. -/
def wavWalk (buf : List Nat) (pos : Nat) (fmtq : Option FmtInfo)
    (dataq : Option (Nat × Nat)) :
    Except String (Option FmtInfo × Option (Nat × Nat)) :=
  if _h : pos + 8 ≤ buf.length then
    match readUInt32LE buf (pos + 4) with
    | .error e => .error e
    | .ok chunkSize =>
      let chunkId := (buf.drop pos).take 4
      let stE : Except String (Option FmtInfo × Option (Nat × Nat)) :=
        if chunkId = fmtBytes then
          match readFmtChunk buf (pos + 8) with
          | .error e => .error e
          | .ok info => .ok (some info, dataq)
        else if chunkId = dataBytes then .ok (fmtq, some (pos + 8, chunkSize))
        else .ok (fmtq, dataq)
      match stE with
      | .error e => .error e
      | .ok st =>
        if st.2.isSome && st.1.isSome then .ok st
        else wavWalk buf (pos + 8 + chunkSize + chunkSize % 2) st.1 st.2
  else .ok (fmtq, dataq)
termination_by buf.length - pos
decreasing_by omega

/-- The value returned by `parseWavAndExtractData` (src/unnamed/part_000
lines 35-38): the extracted data-chunk bytes plus the format fields, each of
which stays `none` when no "fmt " chunk was seen (JavaScript `null`). -/
structure WavData where
  data : List Nat
  audioFormat : Option Nat
  numChannels : Option Nat
  sampleRate : Option Nat
  bitsPerSample : Option Nat
deriving DecidableEq, Repr

/-- Translation of `parseWavAndExtractData` (src/unnamed/part_000 lines
3-39): check the RIFF/WAVE signature, walk the chunks from offset 12, throw
"WAV has no data chunk" when the walk found no data chunk, and otherwise
return `wavBuf.subarray(dataStart, dataStart + dataSize)` (which Node clamps
to the buffer end, as `drop`/`take` do) together with the format fields. -/
def parseWavAndExtractData (wavBuf : List Nat) : Except String WavData :=
  if wavBuf.take 4 = riffBytes ∧ (wavBuf.drop 8).take 4 = waveBytes then
    match wavWalk wavBuf 12 none none with
    | .error e => .error e
    | .ok (fmtq, dataq) =>
      match dataq with
      | none => .error "WAV has no data chunk"
      | some (dataStart, dataSize) =>
        .ok { data := (wavBuf.drop dataStart).take dataSize
              audioFormat := fmtq.map FmtInfo.audioFormat
              numChannels := fmtq.map FmtInfo.numChannels
              sampleRate := fmtq.map FmtInfo.sampleRate
              bitsPerSample := fmtq.map FmtInfo.bitsPerSample }
  else .error "Not a WAV container"

/-- The structured failure reasons of `ensureRawUlawBase64` (src/unnamed/
part_000 lines 42, 49, 62, 67). The `wavNotUlaw` reason carries the
offending encoding tag (or `none` when the WAV had no "fmt " chunk), as the
source interpolates it into the reason string. -/
inductive NormReason where
  | empty
  | wavNotUlaw (fmt : Option Nat)
  | mp3Container
  | oggContainer
deriving DecidableEq, Repr

/-- Outcome of the normalizer: a returned `{ ok: true, b64, note }` value, a
returned `{ ok: false, reason }` value, or an uncaught JavaScript exception
escaping the function. -/
inductive NormResult where
  | ok (bytes : List Nat) (note : String)
  | fail (reason : NormReason)
  | thrown (msg : String)
deriving DecidableEq, Repr

/-- The WAV signature test of src/unnamed/part_000 line 46:
`buf.length >= 12 && buf.slice(0,4) == "RIFF" && buf.slice(8,12) == "WAVE"`. -/
def isWavSig (buf : List Nat) : Prop :=
  12 ≤ buf.length ∧ buf.take 4 = riffBytes ∧ (buf.drop 8).take 4 = waveBytes

instance (buf : List Nat) : Decidable (isWavSig buf) := by
  unfold isWavSig; infer_instance

/-- The MP3 signature test of src/unnamed/part_000 line 61: at least three
bytes and either an "ID3" tag or an MPEG frame sync
(`buf[0] == 0xFF && (buf[1] & 0xE0) == 0xE0`). -/
def isMp3Sig (buf : List Nat) : Prop :=
  3 ≤ buf.length ∧
    (buf.take 3 = id3Bytes ∨ (buf.getD 0 0 = 0xFF ∧ buf.getD 1 0 &&& 0xE0 = 0xE0))

instance (buf : List Nat) : Decidable (isMp3Sig buf) := by
  unfold isMp3Sig; infer_instance

/-- The Ogg signature test of src/unnamed/part_000 line 66: at least four
bytes starting with "OggS". -/
def isOggSig (buf : List Nat) : Prop :=
  4 ≤ buf.length ∧ buf.take 4 = oggBytes

instance (buf : List Nat) : Decidable (isOggSig buf) := by
  unfold isOggSig; infer_instance

/-- Translation of `ensureRawUlawBase64` (src/unnamed/part_000 lines 41-72)
at the byte level: reject an absent/empty payload, strip a RIFF/WAVE
container through `parseWavAndExtractData` — whose exceptions this function
does not catch, hence the `thrown` propagation — and fail unless its
encoding tag is 7 (μ-law); reject MP3 and Ogg signatures; pass anything
else through unchanged as raw μ-law. Sample-rate and channel mismatches
only produce log warnings in the source and do not affect the result. -/
def ensureRawUlawBase64 (buf : List Nat) : NormResult :=
  if buf.isEmpty then .fail .empty
  else if isWavSig buf then
    match parseWavAndExtractData buf with
    | .error e => .thrown e
    | .ok info =>
      if info.audioFormat ≠ some 7 then .fail (.wavNotUlaw info.audioFormat)
      else .ok info.data "stripped-wav"
  else if isMp3Sig buf then .fail .mp3Container
  else if isOggSig buf then .fail .oggContainer
  else .ok buf "raw"

/-- An inbound agent-socket JSON envelope as inspected by the live handler
`elevenLabsWs.on("message")` of src/inbound-calls.js lines 154-200 and by
the (never invoked) `handleElevenLabsMessage` of lines 223-280. Audio
payload fields carry decoded bytes; `hasCim`/`hasCimEvent` record the
JavaScript truthiness of the `conversation_initiation_metadata` /
`conversation_initiation_metadata_event` envelope fields; `hasAudioObj`
records the truthiness of the `audio` envelope field. -/
structure ELMsg where
  type : Option String := none
  event : Option String := none
  hasCim : Bool := false
  hasCimEvent : Bool := false
  audioEventB64 : Option (List Nat) := none
  agentAudioChunk : Option (List Nat) := none
  audioBase64 : Option (List Nat) := none
  hasAudioObj : Bool := false
  audioChunk : Option (List Nat) := none
  audioObjBase64 : Option (List Nat) := none
  pingEventId : Option String := none
deriving DecidableEq, Repr

/-- JavaScript truthiness of an optional base64 payload: absent or the
empty string (empty byte sequence) is falsy. -/
def truthyBytes : Option (List Nat) → Bool
  | none => false
  | some s => !s.isEmpty

/-- The initiation-metadata recognizer of src/inbound-calls.js lines
160-166: the message counts as initiation metadata when its `type` tag, its
`event` tag, or the truthiness of either metadata envelope field says so. -/
def isInitMeta (m : ELMsg) : Bool :=
  m.type == some "conversation_initiation_metadata" ||
  m.event == some "conversation_initiation_metadata" ||
  m.hasCim || m.hasCimEvent

/-- The audio-payload extraction chain of src/inbound-calls.js lines
182-191: `audio_event.audio_base_64` when `type == "audio"`, else
`agent_audio_chunk`, else `audio_base64`, else `audio.chunk || audio.base64`
when the `audio` object is present; `null` otherwise. -/
def pickAudio (m : ELMsg) : Option (List Nat) :=
  if m.type == some "audio" && truthyBytes m.audioEventB64 then m.audioEventB64
  else if truthyBytes m.agentAudioChunk then m.agentAudioChunk
  else if truthyBytes m.audioBase64 then m.audioBase64
  else if m.hasAudioObj && (truthyBytes m.audioChunk || truthyBytes m.audioObjBase64) then
    if truthyBytes m.audioChunk then m.audioChunk else m.audioObjBase64
  else none

/-- Node's `buf.indexOf(pattern)`: index of the first occurrence of the
byte pattern as a contiguous subsequence, `none` (JavaScript -1) when
absent. -/
def indexOfSeq (pat : List Nat) : List Nat → Option Nat
  | [] => if pat.isPrefixOf ([] : List Nat) then some 0 else none
  | b :: rest =>
    if pat.isPrefixOf (b :: rest) then some 0
    else (indexOfSeq pat rest).map (· + 1)

/-- Translation of `stripWaveIfNeeded` (src/inbound-calls.js lines 97-106):
when the buffer has at least 12 bytes and starts with "RIFF", find the first
occurrence of "data"; if it is at a positive index `i` with `i + 8` within
the buffer, return everything after skipping the identifier and the 4-byte
chunk size (`buf.subarray(i + 8)`); otherwise return the buffer unchanged. -/
def stripWaveIfNeeded (buf : List Nat) : List Nat :=
  if 12 ≤ buf.length ∧ buf.take 4 = riffBytes then
    match indexOfSeq dataBytes buf with
    | some idx => if 0 < idx ∧ idx + 8 ≤ buf.length then buf.drop (idx + 8) else buf
    | none => buf
  else buf

/-- Translation of `enqueueELBase64` (src/inbound-calls.js lines 108-116)
acting on an explicit queue: strip a WAV container if present, slice into
160-byte frames, and append every frame to the outbound queue. -/
def enqueueELBase64 (q : List (List Nat)) (elBytes : List Nat) : List (List Nat) :=
  q ++ packetize (stripWaveIfNeeded elBytes)

/-- A message sent to the Twilio (telephony) socket. -/
inductive TwilioOut where
  | media (sid : Option String) (payload : List Nat)
  | clear (sid : Option String)
deriving DecidableEq, Repr

/-- A message sent to the ElevenLabs (agent) socket. -/
inductive AgentOut where
  | initClientData
  | userAudioChunk (payload : List Nat)
  | pong (eventId : String)
deriving DecidableEq, Repr

/-- An observable effect of a handler: a send on either socket or a close
of either socket. -/
inductive Effect where
  | twilioSend (m : TwilioOut)
  | elSend (m : AgentOut)
  | closeTwilio
  | closeEl
deriving DecidableEq, Repr

/-- The mutable per-call state of src/inbound-calls.js lines 53-67 and 130:
the outbound frame queue, the Twilio stream identifier, the readiness flag
`convoReady`, whether the pacer interval timer is set, and whether each
socket is open. The diagnostic `stats` counters are omitted: they never
affect control flow. -/
structure Session where
  outQueue : List (List Nat)
  streamSid : Option String
  convoReady : Bool
  pacerOn : Bool
  connOpen : Bool
  elOpen : Bool
deriving DecidableEq, Repr

/-- The state right after the Twilio socket connects (src/inbound-calls.js
lines 53-54, 67, 130): empty queue, no stream id, not ready, no pacer
timer, telephony socket open, agent socket not yet open. -/
def initialSession : Session :=
  { outQueue := [], streamSid := none, convoReady := false, pacerOn := false,
    connOpen := true, elOpen := false }

/-- The live agent-socket message handler `elevenLabsWs.on("message")` of
src/inbound-calls.js lines 154-200: first latch `convoReady` when the
message is initiation metadata, then extract an audio payload (if any) and
enqueue its 160-byte frames. It performs no sends and no closes — in
particular it never dispatches to `handleElevenLabsMessage`. -/
def elMessageStep (s : Session) (m : ELMsg) : Session × List Effect :=
  let s1 := if !s.convoReady && isInitMeta m then { s with convoReady := true } else s
  match pickAudio m with
  | some b =>
    if b.isEmpty then (s1, [])
    else ({ s1 with outQueue := enqueueELBase64 s1.outQueue b }, [])
  | none => (s1, [])

/-- The dead function `handleElevenLabsMessage` of src/inbound-calls.js
lines 223-280 (defined but never called by any registered handler):
initiation metadata latches `convoReady`; an `audio` message is buffered
whole when `streamSid` is unset and otherwise sent directly as one media
message; `interruption` sends a single clear event carrying the current
(possibly null) `streamSid`; `ping` answers with a pong on the agent
socket. -/
def handleElevenLabsMessage (s : Session) (m : ELMsg) : Session × List Effect :=
  match m.type with
  | some "conversation_initiation_metadata" => ({ s with convoReady := true }, [])
  | some "audio" =>
    match m.audioEventB64 with
    | none => (s, [])
    | some b =>
      if b.isEmpty then (s, [])
      else
        match s.streamSid with
        | none => ({ s with outQueue := s.outQueue ++ [b] }, [])
        | some sid => (s, [Effect.twilioSend (.media (some sid) b)])
  | some "interruption" => (s, [Effect.twilioSend (.clear s.streamSid)])
  | some "ping" =>
    match m.pingEventId with
    | none => (s, [])
    | some eid =>
      if eid.isEmpty then (s, []) else (s, [Effect.elSend (.pong eid)])
  | _ => (s, [])

/-- An inbound Twilio-socket message, keyed by its `event` discriminator
(src/inbound-calls.js lines 286-322). The `media` payload carries the
decoded bytes of `data.media.payload`. -/
inductive TwilioMsg where
  | start (sid : String)
  | media (payload : List Nat)
  | stop (sid : String)
  | other (event : String)
deriving DecidableEq, Repr

/-- The Twilio-socket message handler `connection.on("message")` of
src/inbound-calls.js lines 283-327. `start` records the stream id and
starts the pacer (`startPacer` is a no-op when the timer already exists, so
setting the flag is idempotent); `media` forwards the payload to the agent
socket — in two separate, identically guarded blocks, lines 296-304 and
305-312, hence two identical sends — only when `convoReady` is set and the
agent socket is open, and otherwise does nothing at all; `stop` only stops
the pacer; anything else is logged and ignored. -/
def twilioStep (s : Session) (m : TwilioMsg) : Session × List Effect :=
  match m with
  | .start sid => ({ s with streamSid := some sid, pacerOn := true }, [])
  | .media p =>
    let sends1 : List Effect :=
      if s.convoReady && s.elOpen then [Effect.elSend (.userAudioChunk p)] else []
    let sends2 : List Effect :=
      if s.convoReady && s.elOpen then [Effect.elSend (.userAudioChunk p)] else []
    (s, sends1 ++ sends2)
  | .stop _ => ({ s with pacerOn := false }, [])
  | .other _ => (s, [])

/-- One firing of the pacer interval callback (src/inbound-calls.js lines
71-88), which exists only while the timer is set: do nothing when the
telephony socket is not open or `streamSid` is unset; otherwise `shift` the
queue head and, when that head is truthy (non-empty — `shift` on an empty
queue yields `undefined`), send it as a single media message addressed to
the current `streamSid`. The callback body is wrapped in try/catch, so no
tick ever raises. -/
def pacerTick (s : Session) : Session × List Effect :=
  if !s.pacerOn then (s, [])
  else if !s.connOpen then (s, [])
  else
    match s.streamSid with
    | none => (s, [])
    | some sid =>
      match s.outQueue with
      | [] => (s, [])
      | f :: rest =>
        if f.isEmpty then ({ s with outQueue := rest }, [])
        else ({ s with outQueue := rest }, [Effect.twilioSend (.media (some sid) f)])

/-- The 1500 ms readiness fallback timer callback of src/inbound-calls.js
lines 203-208: set `convoReady` if it is not yet set. -/
def fallbackFire (s : Session) : Session :=
  if !s.convoReady then { s with convoReady := true } else s

/-- Every entry point that can touch the shared session state: the agent
socket opening (which sends the dynamic-variables handshake, lines
141-152), an agent message, the readiness fallback timer, a Twilio message,
a pacer tick, and either socket closing (the Twilio close handler stops the
pacer, lines 330-333; the agent close handler only clears the fallback
timer, lines 217-220). -/
inductive Event where
  | elOpened
  | elMsg (m : ELMsg)
  | fallback
  | twilio (m : TwilioMsg)
  | tick
  | twilioClosed
  | elClosed
deriving DecidableEq, Repr

/-- The combined step relation of the session: dispatch one event to the
handler that the source registers for it. -/
def sessionStep (s : Session) (e : Event) : Session × List Effect :=
  match e with
  | .elOpened => ({ s with elOpen := true }, [Effect.elSend .initClientData])
  | .elMsg m => elMessageStep s m
  | .fallback => (fallbackFire s, [])
  | .twilio m => twilioStep s m
  | .tick => pacerTick s
  | .twilioClosed => ({ s with connOpen := false, pacerOn := false }, [])
  | .elClosed => ({ s with elOpen := false }, [])

/-- Run a whole trace of events, keeping only the final state. -/
def runTrace (s : Session) : List Event → Session
  | [] => s
  | e :: es => runTrace (sessionStep s e).1 es

/-- Run `n` consecutive pacer ticks, collecting every emitted action in
order. -/
def runTicks (s : Session) : Nat → Session × List Effect
  | 0 => (s, [])
  | n + 1 =>
    let r1 := pacerTick s
    let r2 := runTicks r1.1 n
    (r2.1, r1.2 ++ r2.2)

theorem elMessageStep_convoReady (s : Session) (m : ELMsg) :
    ((elMessageStep s m).1).convoReady = (s.convoReady || isInitMeta m) := by
  unfold elMessageStep
  cases hp : pickAudio m with
  | none => cases hc : s.convoReady <;> cases hm : isInitMeta m <;> simp [hc, hm]
  | some b =>
    by_cases hb : b.isEmpty <;>
      cases hc : s.convoReady <;> cases hm : isInitMeta m <;> simp [hb, hc, hm]

theorem pacerTick_state (s : Session) :
    ((pacerTick s).1).convoReady = s.convoReady ∧
    ((pacerTick s).1).streamSid = s.streamSid ∧
    ((pacerTick s).1).pacerOn = s.pacerOn ∧
    ((pacerTick s).1).connOpen = s.connOpen := by
  unfold pacerTick
  repeat' split
  all_goals exact ⟨rfl, rfl, rfl, rfl⟩

theorem sessionStep_convoReady_mono (s : Session) (e : Event)
    (h : s.convoReady = true) : ((sessionStep s e).1).convoReady = true := by
  cases e with
  | elOpened => simpa using h
  | elMsg m => simp [sessionStep, elMessageStep_convoReady, h]
  | fallback => simp [sessionStep, fallbackFire, h]
  | twilio m => cases m <;> simp [sessionStep, twilioStep, h]
  | tick => simp [sessionStep, (pacerTick_state s).1, h]
  | twilioClosed => simpa using h
  | elClosed => simpa using h

theorem runTrace_convoReady_mono :
    ∀ (evs : List Event) (s : Session), s.convoReady = true →
      (runTrace s evs).convoReady = true := by
  intro evs
  induction evs with
  | nil => intro s h; exact h
  | cons e es ih => intro s h; exact ih _ (sessionStep_convoReady_mono s e h)

/-- C3: the readiness flag is a monotonic one-way latch. It starts false;
any agent message recognized as initiation metadata (under any of its
shapes) sets it, as does the fallback timer firing; and no event of the
session — agent open/message/close, fallback, Twilio message, pacer tick,
socket close — ever resets it: once true it stays true along every trace,
so setting it again is a no-op. -/
theorem c3_readiness_latch :
    initialSession.convoReady = false ∧
    (∀ (s : Session) (m : ELMsg), isInitMeta m = true →
      ((elMessageStep s m).1).convoReady = true) ∧
    (∀ s : Session, (fallbackFire s).convoReady = true) ∧
    (∀ (s : Session) (e : Event), s.convoReady = true →
      ((sessionStep s e).1).convoReady = true) ∧
    (∀ (s : Session) (evs : List Event), s.convoReady = true →
      (runTrace s evs).convoReady = true) := by
  refine ⟨rfl, ?_, ?_, ?_, ?_⟩
  · intro s m hm
    rw [elMessageStep_convoReady, hm, Bool.or_true]
  · intro s
    cases hc : s.convoReady <;> simp [fallbackFire, hc]
  · exact fun s e h => sessionStep_convoReady_mono s e h
  · exact fun s evs h => runTrace_convoReady_mono evs s h

/-- A metadata message in its plainest shape: a bare `type` tag. -/
def metaMsg : ELMsg := { type := some "conversation_initiation_metadata" }

theorem c3_witness :
    isInitMeta metaMsg = true ∧
    ((elMessageStep initialSession metaMsg).1).convoReady = true ∧
    (runTrace { initialSession with convoReady := true }
      [Event.fallback, Event.tick]).convoReady = true := by
  refine ⟨by decide, c3_readiness_latch.2.1 initialSession metaMsg (by decide),
    c3_readiness_latch.2.2.2.2 _ [Event.fallback, Event.tick] rfl⟩

/-- C4: a Twilio `media` event arriving while the Readiness Gate is closed
is dropped outright: the handler emits no message on either socket and the
session state — in particular the outbound queue — is completely
unchanged, so nothing is queued or retained for replay. -/
theorem c4_media_dropped_before_ready (s : Session) (p : List Nat)
    (h : s.convoReady = false) :
    twilioStep s (.media p) = (s, []) := by
  simp [twilioStep, h]

theorem c4_witness :
    initialSession.convoReady = false ∧
    twilioStep initialSession (.media [0x7F, 0x00]) = (initialSession, []) :=
  ⟨rfl, c4_media_dropped_before_ready initialSession [0x7F, 0x00] rfl⟩

/-- A session in full streaming state: gate open, pacer running, stream id
known, both sockets open. -/
def streamingSession : Session :=
  { outQueue := [], streamSid := some "MZ123", convoReady := true,
    pacerOn := true, connOpen := true, elOpen := true }

/-- C9: a Twilio `media` event arriving while the gate is open and the
agent socket is open is forwarded to the agent twice — the handler contains
two identically guarded blocks, each sending the same `user_audio_chunk`
payload — and the state is unchanged. -/
theorem c9_media_double_forward (s : Session) (p : List Nat)
    (h1 : s.convoReady = true) (h2 : s.elOpen = true) :
    twilioStep s (.media p) =
      (s, [Effect.elSend (.userAudioChunk p), Effect.elSend (.userAudioChunk p)]) := by
  simp [twilioStep, h1, h2]

theorem c9_witness :
    twilioStep streamingSession (.media [1, 2, 3]) =
      (streamingSession,
        [Effect.elSend (.userAudioChunk [1, 2, 3]),
         Effect.elSend (.userAudioChunk [1, 2, 3])]) :=
  c9_media_double_forward streamingSession [1, 2, 3] rfl rfl

/-- C8: a Twilio `stop` event only clears the pacer timer: it emits no send
and no close on either socket and changes no other state field; and with
the pacer stopped, a tick does nothing, so no further paced sends occur. -/
theorem c8_stop_only_stops_pacer (s : Session) (sid : String) :
    twilioStep s (.stop sid) = ({ s with pacerOn := false }, []) ∧
    (∀ s2 : Session, s2.pacerOn = false → pacerTick s2 = (s2, [])) := by
  refine ⟨rfl, ?_⟩
  intro s2 h
  simp [pacerTick, h]

theorem c8_witness :
    twilioStep streamingSession (.stop "MZ123") =
      ({ streamingSession with pacerOn := false }, []) ∧
    pacerTick { streamingSession with pacerOn := false } =
      ({ streamingSession with pacerOn := false }, []) :=
  ⟨(c8_stop_only_stops_pacer streamingSession "MZ123").1,
   (c8_stop_only_stops_pacer streamingSession "MZ123").2 _ rfl⟩

/-- An agent `interruption` message: a bare `type` tag. -/
def interruptionMsg : ELMsg := { type := some "interruption" }

/-- C7 (code bug evidence): the registered agent-socket handler of
src/inbound-calls.js (lines 154-200) ignores an `interruption` message —
it emits nothing at all, in particular no clear event — even in a fully
streaming session with a known streamSid; whereas the function
`handleElevenLabsMessage` (lines 223-280), which implements the intended
behaviour of emitting exactly one `event=clear` addressed to the current
streamSid, is defined but never invoked by any registered handler. -/
theorem c7_interruption_not_wired :
    sessionStep streamingSession (.elMsg interruptionMsg) = (streamingSession, []) ∧
    handleElevenLabsMessage streamingSession interruptionMsg =
      (streamingSession, [Effect.twilioSend (.clear (some "MZ123"))]) := by
  constructor
  · rfl
  · rfl

theorem pacerTick_idle (s : Session) (hp : s.pacerOn = true)
    (hc : s.connOpen = true) (h : s.streamSid = none ∨ s.outQueue = []) :
    pacerTick s = (s, []) := by
  rcases h with h | h
  · simp [pacerTick, hp, hc, h]
  · cases hsid : s.streamSid with
    | none => simp [pacerTick, hp, hc, hsid]
    | some sid => simp [pacerTick, hp, hc, hsid, h]

theorem pacerTick_send (s : Session) (sid : String) (f : List Nat)
    (rest : List (List Nat)) (hp : s.pacerOn = true) (hc : s.connOpen = true)
    (hsid : s.streamSid = some sid) (hq : s.outQueue = f :: rest) (hf : f ≠ []) :
    pacerTick s =
      ({ s with outQueue := rest }, [Effect.twilioSend (.media (some sid) f)]) := by
  have hfe : f.isEmpty = false := by
    cases f with
    | nil => exact absurd rfl hf
    | cons a t => rfl
  simp [pacerTick, hp, hc, hsid, hq, hfe]

theorem runTicks_spec :
    ∀ (n : Nat) (s : Session) (sid : String),
      s.pacerOn = true → s.connOpen = true → s.streamSid = some sid →
      (∀ f ∈ s.outQueue, f ≠ []) →
      runTicks s n =
        ({ s with outQueue := s.outQueue.drop n },
          (s.outQueue.take n).map (fun f => Effect.twilioSend (.media (some sid) f))) := by
  intro n
  induction n with
  | zero =>
    intro s sid hp hc hsid hq
    simp [runTicks]
  | succ n ih =>
    intro s sid hp hc hsid hq
    cases hqe : s.outQueue with
    | nil =>
      have h0 := pacerTick_idle s hp hc (Or.inr hqe)
      have ihs := ih s sid hp hc hsid hq
      simp [runTicks, h0, ihs, hqe]
    | cons f rest =>
      have hf : f ≠ [] := hq f (by rw [hqe]; exact List.mem_cons_self f rest)
      have h1 := pacerTick_send s sid f rest hp hc hsid hqe hf
      have ihs := ih { s with outQueue := rest } sid hp hc hsid
        (fun g hg => hq g (by rw [hqe]; exact List.mem_cons_of_mem f hg))
      simp [runTicks, h1, ihs, hqe]

/-- C1: a pacer tick taken while the timer is set, the telephony socket is
open and the queue holds genuine (non-empty) frames: when the streamSid is
unset or the queue is empty, nothing is sent and the state is untouched (and
no error can arise — the tick is a total function); otherwise exactly the
head frame is removed and sent as a single media message addressed to the
current streamSid. A tick never emits more than one send, and over any
number of ticks the sent frames are exactly the first frames of the queue in
enqueue (FIFO) order. -/
theorem c1_pacer_fifo (s : Session) (hp : s.pacerOn = true)
    (hc : s.connOpen = true) (hq : ∀ f ∈ s.outQueue, f ≠ []) :
    ((s.streamSid = none ∨ s.outQueue = []) → pacerTick s = (s, [])) ∧
    (∀ sid f rest, s.streamSid = some sid → s.outQueue = f :: rest →
      pacerTick s =
        ({ s with outQueue := rest }, [Effect.twilioSend (.media (some sid) f)])) ∧
    (pacerTick s).2.length ≤ 1 ∧
    (∀ (n : Nat) (sid : String), s.streamSid = some sid →
      (runTicks s n).2 =
        (s.outQueue.take n).map (fun f => Effect.twilioSend (.media (some sid) f))) := by
  refine ⟨pacerTick_idle s hp hc, ?_, ?_, ?_⟩
  · intro sid f rest hsid hqe
    exact pacerTick_send s sid f rest hp hc hsid hqe (hq f (by rw [hqe]; exact List.mem_cons_self f rest))
  · cases hsid : s.streamSid with
    | none => rw [pacerTick_idle s hp hc (Or.inl hsid)]; simp
    | some sid =>
      cases hqe : s.outQueue with
      | nil => rw [pacerTick_idle s hp hc (Or.inr hqe)]; simp
      | cons f rest =>
        rw [pacerTick_send s sid f rest hp hc hsid hqe
          (hq f (by rw [hqe]; exact List.mem_cons_self f rest))]
        simp
  · intro n sid hsid
    rw [runTicks_spec n s sid hp hc hsid hq]

/-- The end-to-end pacer scenario of the spec: three one-byte frames queued
under stream id "CA123". -/
def pacerDemoSession : Session :=
  { outQueue := [[1], [2], [3]], streamSid := some "CA123", convoReady := true,
    pacerOn := true, connOpen := true, elOpen := true }

theorem c1_witness :
    (runTicks pacerDemoSession 3).2 =
      [Effect.twilioSend (.media (some "CA123") [1]),
       Effect.twilioSend (.media (some "CA123") [2]),
       Effect.twilioSend (.media (some "CA123") [3])] := by
  rw [(c1_pacer_fifo pacerDemoSession rfl rfl (by decide)).2.2.2 3 "CA123" rfl]
  rfl

/-- C2: packetizing a raw buffer of length L with FRAME_BYTES = 160 yields
exactly the ceiling of L over 160 frames; concatenating the frames in order
reproduces the buffer exactly; every frame except possibly the last has
length exactly 160; and every frame is non-empty and at most 160 bytes, so
only the last can be shorter. -/
theorem c2_packetizer (buf : List Nat) :
    FRAME_BYTES = 160 ∧
    (packetize buf).length = (buf.length + 159) / 160 ∧
    (packetize buf).flatten = buf ∧
    (∀ f ∈ (packetize buf).dropLast, f.length = 160) ∧
    (∀ f ∈ packetize buf, 0 < f.length ∧ f.length ≤ 160) :=
  ⟨rfl, packetize_length buf, packetize_flatten buf, packetize_dropLast buf,
    packetize_mem_sizes buf⟩

theorem c2_witness :
    (packetize (List.replicate 400 7)).length = 3 ∧
    (packetize (List.replicate 400 7)).flatten = List.replicate 400 7 := by
  have h := c2_packetizer (List.replicate 400 7)
  refine ⟨?_, h.2.2.1⟩
  rw [h.2.1, List.length_replicate]

/-- A canonical μ-law-tagged WAV container: RIFF header (the RIFF size field
is never read by the parser and is left zero), a 16-byte "fmt " chunk whose
encoding tag is `t` (mono, 8000 Hz, byte rate 8000, block align 1, 8 bits
per sample), then a "data" chunk holding exactly the bytes `x`. -/
def mkWav (t : Nat) (x : List Nat) : List Nat :=
  0x52 :: 0x49 :: 0x46 :: 0x46 :: 0x00 :: 0x00 :: 0x00 :: 0x00 ::
  0x57 :: 0x41 :: 0x56 :: 0x45 ::
  0x66 :: 0x6D :: 0x74 :: 0x20 :: 0x10 :: 0x00 :: 0x00 :: 0x00 ::
  (t % 256) :: (t / 256 % 256) :: 0x01 :: 0x00 :: 0x40 :: 0x1F :: 0x00 :: 0x00 ::
  0x40 :: 0x1F :: 0x00 :: 0x00 :: 0x01 :: 0x00 :: 0x08 :: 0x00 ::
  0x64 :: 0x61 :: 0x74 :: 0x61 ::
  (x.length % 256) :: (x.length / 256 % 256) :: (x.length / 65536 % 256) ::
  (x.length / 16777216 % 256) :: x

theorem mkWav_length (t : Nat) (x : List Nat) :
    (mkWav t x).length = x.length + 44 := by
  simp [mkWav]

theorem readFmtChunk_mkWav (t : Nat) (x : List Nat) (ht : t < 65536) :
    readFmtChunk (mkWav t x) (12 + 8) = .ok ⟨t, 1, 8000, 8⟩ := by
  have f1 : readUInt16LE (mkWav t x) (12 + 8) =
      .ok (t % 256 + 256 * (t / 256 % 256)) := rfl
  have f2 : readUInt16LE (mkWav t x) (12 + 8 + 2) = .ok 1 := rfl
  have f3 : readUInt32LE (mkWav t x) (12 + 8 + 4) = .ok 8000 := rfl
  have f4 : readUInt16LE (mkWav t x) (12 + 8 + 14) = .ok 8 := rfl
  have heq : t % 256 + 256 * (t / 256 % 256) = t := by omega
  rw [readFmtChunk, f1, f2, f3, f4, heq]

theorem wavWalk_mkWav_step1 (t : Nat) (x : List Nat) (ht : t < 65536) :
    wavWalk (mkWav t x) 12 none none =
      wavWalk (mkWav t x) 36 (some ⟨t, 1, 8000, 8⟩) none := by
  rw [wavWalk.eq_def]
  rw [dif_pos (by rw [mkWav_length]; omega)]
  have e1 : readUInt32LE (mkWav t x) (12 + 4) = .ok 16 := rfl
  rw [e1]
  have e2 : ((mkWav t x).drop 12).take 4 = fmtBytes := rfl
  simp only [e2, readFmtChunk_mkWav t x ht]
  norm_num

theorem wavWalk_mkWav_step2 (t : Nat) (x : List Nat)
    (hx : x.length < 4294967296) :
    wavWalk (mkWav t x) 36 (some ⟨t, 1, 8000, 8⟩) none =
      .ok (some ⟨t, 1, 8000, 8⟩, some (44, x.length)) := by
  rw [wavWalk.eq_def]
  rw [dif_pos (by rw [mkWav_length]; omega)]
  have e1 : readUInt32LE (mkWav t x) (36 + 4) =
      .ok (x.length % 256 + 256 * (x.length / 256 % 256) +
        65536 * (x.length / 65536 % 256) +
        16777216 * (x.length / 16777216 % 256)) := rfl
  have e2 : readUInt32LE (mkWav t x) (36 + 4) = .ok x.length := by
    rw [e1]
    congr 1
    omega
  rw [e2]
  have e3 : ((mkWav t x).drop 36).take 4 = dataBytes := rfl
  simp only [e3]
  have e4 : ¬(dataBytes = fmtBytes) := by decide
  simp only [if_neg e4, if_pos rfl]
  norm_num

theorem parseWav_mkWav (t : Nat) (x : List Nat) (ht : t < 65536)
    (hx : x.length < 4294967296) :
    parseWavAndExtractData (mkWav t x) =
      .ok ⟨x, some t, some 1, some 8000, some 8⟩ := by
  have hsig1 : (mkWav t x).take 4 = riffBytes := rfl
  have hsig2 : ((mkWav t x).drop 8).take 4 = waveBytes := rfl
  rw [parseWavAndExtractData, if_pos ⟨hsig1, hsig2⟩,
    wavWalk_mkWav_step1 t x ht, wavWalk_mkWav_step2 t x hx]
  have e5 : (mkWav t x).drop 44 = x := rfl
  simp only [e5, List.take_length]
  rfl

/-- C5: normalizing a RIFF/WAVE container whose data chunk holds exactly
the bytes `x` succeeds and returns `x` unchanged when the format chunk's
encoding tag is 7 (8-bit μ-law), and fails with the `wav-not-ulaw`
unsupported-container reason — returning no bytes — when the tag is any
other (16-bit-representable) value. -/
theorem c5_wav_normalization (t : Nat) (x : List Nat) (ht : t < 65536)
    (hx : x.length < 4294967296) :
    (t = 7 → ensureRawUlawBase64 (mkWav t x) = NormResult.ok x "stripped-wav") ∧
    (t ≠ 7 → ensureRawUlawBase64 (mkWav t x) =
      NormResult.fail (NormReason.wavNotUlaw (some t))) := by
  have hne : ¬((mkWav t x).isEmpty = true) := by simp [mkWav]
  have hsig : isWavSig (mkWav t x) := by
    refine ⟨by rw [mkWav_length]; omega, rfl, rfl⟩
  have hbase : ∀ r, parseWavAndExtractData (mkWav t x) = r →
      ensureRawUlawBase64 (mkWav t x) =
        (match r with
          | .error e => .thrown e
          | .ok info =>
            if info.audioFormat ≠ some 7 then .fail (.wavNotUlaw info.audioFormat)
            else .ok info.data "stripped-wav") := by
    intro r hr
    rw [ensureRawUlawBase64, if_neg hne, if_pos hsig, hr]
  have hp := parseWav_mkWav t x ht hx
  constructor
  · intro h7
    subst h7
    rw [hbase _ hp]
    norm_num
  · intro hne7
    rw [hbase _ hp]
    simp only []
    rw [if_pos (by simp [hne7])]

theorem c5_witness :
    ensureRawUlawBase64 (mkWav 7 [9, 9]) = NormResult.ok [9, 9] "stripped-wav" ∧
    ensureRawUlawBase64 (mkWav 1 [9, 9]) =
      NormResult.fail (NormReason.wavNotUlaw (some 1)) :=
  ⟨(c5_wav_normalization 7 [9, 9] (by decide) (by decide)).1 rfl,
   (c5_wav_normalization 1 [9, 9] (by decide) (by decide)).2 (by decide)⟩

/-- C6: any buffer that starts with an MP3 signature (an "ID3" tag or an
MPEG frame sync) or with the Ogg "OggS" signature is always rejected by the
normalizer with the corresponding unsupported-container failure; it never
returns bytes for forwarding. -/
theorem c6_mp3_ogg_rejected (buf : List Nat) (h : isMp3Sig buf ∨ isOggSig buf) :
    (isMp3Sig buf → ensureRawUlawBase64 buf = NormResult.fail NormReason.mp3Container) ∧
    (isOggSig buf → ensureRawUlawBase64 buf = NormResult.fail NormReason.oggContainer) := by
  cases buf with
  | nil => simp [isMp3Sig, isOggSig] at h
  | cons b0 buf1 =>
    cases buf1 with
    | nil => simp [isMp3Sig, isOggSig] at h
    | cons b1 buf2 =>
      cases buf2 with
      | nil => simp [isMp3Sig, isOggSig] at h
      | cons b2 buf3 =>
        have hne : ¬((b0 :: b1 :: b2 :: buf3).isEmpty = true) := by simp
        constructor
        · intro hm
          obtain ⟨hl, hcase⟩ := hm
          have hnw : ¬ isWavSig (b0 :: b1 :: b2 :: buf3) := by
            rintro ⟨hl2, hr, hw⟩
            simp [riffBytes] at hr
            rcases hcase with hid3 | hsync
            · simp [id3Bytes] at hid3
              omega
            · simp at hsync
              omega
          rw [ensureRawUlawBase64, if_neg hne, if_neg hnw, if_pos ⟨hl, hcase⟩]
        · intro ho
          obtain ⟨hl, hogg⟩ := ho
          simp [oggBytes] at hogg
          have hnw : ¬ isWavSig (b0 :: b1 :: b2 :: buf3) := by
            rintro ⟨hl2, hr, hw⟩
            simp [riffBytes] at hr
            omega
          have hnm : ¬ isMp3Sig (b0 :: b1 :: b2 :: buf3) := by
            rintro ⟨hl2, hid3 | hsync⟩
            · simp [id3Bytes] at hid3
              omega
            · simp at hsync
              omega
          rw [ensureRawUlawBase64, if_neg hne, if_neg hnw, if_neg hnm,
            if_pos ⟨hl, by simpa [oggBytes] using hogg⟩]

theorem c6_witness :
    ensureRawUlawBase64 [0x49, 0x44, 0x33] = NormResult.fail NormReason.mp3Container ∧
    ensureRawUlawBase64 [0x4F, 0x67, 0x67, 0x53] =
      NormResult.fail NormReason.oggContainer :=
  ⟨(c6_mp3_ogg_rejected [0x49, 0x44, 0x33] (Or.inl (by decide))).1 (by decide),
   (c6_mp3_ogg_rejected [0x4F, 0x67, 0x67, 0x53] (Or.inr (by decide))).2 (by decide)⟩

/-- A RIFF/WAVE container that ends right after the "WAVE" tag: no chunk at
all, in particular no "data" chunk. -/
def wavNoData : List Nat :=
  [0x52, 0x49, 0x46, 0x46, 0x00, 0x00, 0x00, 0x00, 0x57, 0x41, 0x56, 0x45]

/-- C10: on a RIFF/WAVE buffer with no "data" chunk, `parseWavAndExtractData`
throws ("WAV has no data chunk") and `ensureRawUlawBase64` does not catch
the exception: it propagates out (`NormResult.thrown`) instead of being
returned as a structured `{ ok: false }` failure value. -/
theorem c10_no_data_chunk_throws :
    parseWavAndExtractData wavNoData = .error "WAV has no data chunk" ∧
    ensureRawUlawBase64 wavNoData = NormResult.thrown "WAV has no data chunk" := by
  have hw : wavWalk wavNoData 12 none none = .ok (none, none) := by
    rw [wavWalk.eq_def, dif_neg (by decide)]
  have hp : parseWavAndExtractData wavNoData = .error "WAV has no data chunk" := by
    rw [parseWavAndExtractData, if_pos ⟨rfl, rfl⟩, hw]
  refine ⟨hp, ?_⟩
  rw [ensureRawUlawBase64, if_neg (by decide), if_pos (by decide : isWavSig wavNoData), hp]
